import Mathlib

/-!
Verification development for the `harrybrwn/db` Go helper library.

The library's helpers are modelled as pure Lean functions over small
"environment" records that describe the behaviour of the injected
collaborators (the prepared statement, the transaction, the row iterator,
the pingable database).  Each helper returns a trace recording the value it
returns together with how many times each collaborator method was invoked,
mirroring the Go control flow (including `defer` blocks) statement by
statement.
-/

namespace Db

/-- Abstract model of Go `error` values.  Sentinel errors
(`sql.ErrTxDone`, `sql.ErrNoRows`, `ErrDBTimeout`, `context.Canceled`) are
constructors; `msg` models `errors.New`/`fmt.Errorf` values by their message
and `wrap` models `errors.Wrap msg cause`, whose `errors.Is` chain contains
the cause. -/
inductive Err where
  | txDone
  | noRows
  | dbTimeout
  | canceled
  | msg (s : String)
  | wrap (m : String) (cause : Err)
deriving DecidableEq, Repr

/-- Model of `errors.Is e target`: value equality, or equality somewhere
down the `wrap` cause chain. -/
def errIs : Err → Err → Bool
  | Err.wrap m c, target => decide (Err.wrap m c = target) || errIs c target
  | e, target => decide (e = target)

/-- Model of `errors.WithStack`.  It only attaches a stack trace, which is
invisible to `errors.Is` and to every property in this development, so it is
the identity on the abstract error value. -/
def withStack (e : Err) : Err := e

/-- Behaviour of the collaborators of `WithStmt`: the result of
`db.PrepareContext` (`none` = success), of the callback `fn`, and of
`stmt.Close`. -/
structure StmtEnv where
  prepErr : Option Err
  fnErr : Option Err
  closeErr : Option Err
deriving DecidableEq, Repr

/-- Observable outcome of a `WithStmt` call: the returned error, and how
many times the callback and `stmt.Close` ran. -/
structure StmtTrace where
  result : Option Err
  fnCalls : Nat
  closeCalls : Nat
deriving DecidableEq, Repr

/-- Model of `WithStmt` (src/utils.go).  If preparation fails the error is
returned at once (no callback, no close).  Otherwise a deferred
`stmt.Close` runs on exit, promoting its error only when `err == nil`;
the body runs `err = fn(stmt)` and returns it when non-nil, else nil. -/
def WithStmt (env : StmtEnv) : StmtTrace :=
  match env.prepErr with
  | some e => { result := some (withStack e), fnCalls := 0, closeCalls := 0 }
  | none =>
    let errAfterFn := env.fnErr
    let result :=
      match env.closeErr, errAfterFn with
      | some e, none => some (withStack e)
      | _, _ => errAfterFn
    { result := result, fnCalls := 1, closeCalls := 1 }

/-- Model of `sql.TxOptions` (isolation level and read-only flag); the Go
zero value is `⟨0, false⟩`. -/
structure TxOptions where
  isolation : Nat := 0
  readOnly : Bool := false
deriving DecidableEq, Repr

/-- Behaviour of the collaborators of `WithTx`: the results of
`db.BeginTx`, the callback, `tx.Commit` and `tx.Rollback`. -/
structure TxEnv where
  beginErr : Option Err
  fnErr : Option Err
  commitErr : Option Err
  rollbackErr : Option Err
deriving DecidableEq, Repr

/-- Observable outcome of a `WithTx` call. -/
structure TxTrace where
  result : Option Err
  optsUsed : TxOptions
  fnCalls : Nat
  commitCalls : Nat
  rollbackCalls : Nat
deriving DecidableEq, Repr

/-- The deferred rollback block of `WithTx`/`TxDo`: its error is promoted
only when no error has been captured yet and it is not `sql.ErrTxDone`. -/
def deferredRollback (rollbackErr : Option Err) (err : Option Err) : Option Err :=
  match rollbackErr, err with
  | some e, none => if errIs e Err.txDone then none else some (withStack e)
  | _, err => err

/-- Model of `WithTx` (src/utils.go).  Nil options are replaced by the zero
value; a begin failure is returned before the rollback defer is armed; the
callback error short-circuits commit; otherwise commit's error is taken;
the deferred rollback always runs after begin succeeded. -/
def WithTx (txOpts : Option TxOptions) (env : TxEnv) : TxTrace :=
  let opts := match txOpts with
    | none => ({} : TxOptions)
    | some o => o
  match env.beginErr with
  | some e =>
    { result := some (withStack e), optsUsed := opts
      fnCalls := 0, commitCalls := 0, rollbackCalls := 0 }
  | none =>
    match env.fnErr with
    | some e =>
      { result := deferredRollback env.rollbackErr (some (withStack e))
        optsUsed := opts, fnCalls := 1, commitCalls := 0, rollbackCalls := 1 }
    | none =>
      { result := deferredRollback env.rollbackErr (env.commitErr.map withStack)
        optsUsed := opts, fnCalls := 1, commitCalls := 1, rollbackCalls := 1 }

/-- Behaviour of the `Rows` iterator handed to `ScanOne`: the result of
`Next`, `Err`, `Scan` and `Close`. -/
structure RowsEnv where
  next : Bool
  errErr : Option Err
  scanErr : Option Err
  closeErr : Option Err
deriving DecidableEq, Repr

/-- Observable outcome of a `ScanOne` call. -/
structure RowsTrace where
  result : Option Err
  nextCalls : Nat
  closeCalls : Nat
deriving DecidableEq, Repr

/-- Model of `ScanOne` (src/db.go): advance once; with no row return the
iteration error if any, else `sql.ErrNoRows`; with a row return the scan
error if any, else the result of `Close`.  Close runs exactly once on every
path (its error is discarded on all but the last path). -/
def ScanOne (env : RowsEnv) : RowsTrace :=
  if !env.next then
    match env.errErr with
    | some e => { result := some e, nextCalls := 1, closeCalls := 1 }
    | none => { result := some Err.noRows, nextCalls := 1, closeCalls := 1 }
  else
    match env.scanErr with
    | some e => { result := some e, nextCalls := 1, closeCalls := 1 }
    | none => { result := env.closeErr, nextCalls := 1, closeCalls := 1 }

/-- Model of the dynamic value passed to `Begin` (src/tx.go).  A Go type
switch tests interfaces in source order, and one concrete value may satisfy
several of them, so the value is modelled by its capabilities: whether it
implements `Tx`, `DB`, is a `*sql.DB`, or implements `TxBeginor`, together
with its type name (for the `%T` message) and the behaviour of its
`BeginTx` method. -/
structure AnyValue where
  implTx : Bool
  implDB : Bool
  isSqlDB : Bool
  implTxBeginor : Bool
  typeName : String
  beginErr : Option Err
deriving DecidableEq, Repr

/-- Observable outcome of a `Begin` call: whether the returned transaction
is nil, the returned error, and how many begin operations were attempted on
the argument. -/
structure BeginTrace where
  txNil : Bool
  err : Option Err
  beginCalls : Nat
deriving DecidableEq, Repr

/-- Model of `Begin` (src/tx.go): the type switch tries `Tx` (rejected, no
nested transactions), then `DB`, `*sql.DB` and `TxBeginor` (each delegating
to `BeginTx`), and otherwise returns the `%T` type-mismatch error. -/
def Begin (v : AnyValue) : BeginTrace :=
  if v.implTx then
    { txNil := true
      err := some (Err.msg ("cannot start a transaction from a transaction"))
      beginCalls := 0 }
  else if v.implDB then
    match v.beginErr with
    | some e => { txNil := true, err := some e, beginCalls := 1 }
    | none => { txNil := false, err := none, beginCalls := 1 }
  else if v.isSqlDB then
    match v.beginErr with
    | some e => { txNil := true, err := some e, beginCalls := 1 }
    | none => { txNil := false, err := none, beginCalls := 1 }
  else if v.implTxBeginor then
    match v.beginErr with
    | some e => { txNil := true, err := some e, beginCalls := 1 }
    | none => { txNil := false, err := none, beginCalls := 1 }
  else
    { txNil := true
      err := some (Err.msg ("cannot start a transaction using " ++ v.typeName))
      beginCalls := 0 }

/-- One second in nanoseconds (`time.Second`). -/
def timeSecond : Nat := 1000000000

/-- Model of the `waitOpts` option record of `WaitFor`
(src/unnamed/part_003).  The diagnostic logger has no observable effect and
is omitted. -/
structure waitOpts where
  interval : Nat
  timeout : Nat
deriving DecidableEq, Repr

/-- Model of the `WithInterval` option. -/
def WithInterval (d : Nat) : waitOpts → waitOpts :=
  fun wo => { wo with interval := d }

/-- Model of the `WithTimeout` option. -/
def WithTimeout (d : Nat) : waitOpts → waitOpts :=
  fun wo => { wo with timeout := d }

/-- Behaviour of the collaborators of `WaitFor`: the result of the
immediate `PingContext` probe, the result of the `Ping` issued at each tick
of the retry loop, the tick index from which the cancellation context is
observed done (covering both a deadline derived from `WithTimeout` and
caller cancellation), and the context's own cancellation cause
(`ctx.Err()`). -/
structure WaitEnv where
  pingCtx : Option Err
  ping : Nat → Option Err
  doneAt : Option Nat
  doneCause : Err

/-- Whether the cancellation context is observed done at tick `t`. -/
def ctxDone (env : WaitEnv) (t : Nat) : Bool :=
  match env.doneAt with
  | none => false
  | some d => decide (d ≤ t)

/-- The retry loop of `WaitFor`: at each tick, exit with the wrapped
timeout error if the context is done, otherwise issue `Ping` and exit on
success.  `fuel` bounds the number of iterations modelled; the first
component is `none` when the loop is still running after `fuel` ticks, and
the second counts the `Ping` calls issued. -/
def waitLoop (env : WaitEnv) : Nat → Nat → Option (Option Err) × Nat
  | 0, _ => (none, 0)
  | Nat.succ fuel, t =>
    if ctxDone env t then
      (some (some (Err.wrap ("could not reach database") Err.dbTimeout)), 0)
    else
      match env.ping t with
      | none => (some none, 1)
      | some _ =>
        let r := waitLoop env fuel (t + 1)
        (r.1, r.2 + 1)

/-- Observable outcome of a `WaitFor` call: the returned error (`none` in
the first component means the loop was still running after the modelled
fuel), the number of `PingContext` and `Ping` calls, and the ticker
interval in use. -/
structure WaitTrace where
  result : Option (Option Err)
  ctxPings : Nat
  pings : Nat
  interval : Nat
deriving DecidableEq, Repr

/-- Model of `WaitFor` (src/unnamed/part_003): fold the options over the
defaults (interval `time.Second * 2`, no timeout), send one immediate
`PingContext` and return nil at once if it succeeds, otherwise run the
ticker loop. -/
def WaitFor (opts : List (waitOpts → waitOpts)) (env : WaitEnv) (fuel : Nat) :
    WaitTrace :=
  let wo := opts.foldl (fun w o => o w) { interval := timeSecond * 2, timeout := 0 }
  match env.pingCtx with
  | none => { result := some none, ctxPings := 1, pings := 0, interval := wo.interval }
  | some _ =>
    let r := waitLoop env fuel 0
    { result := r.1, ctxPings := 1, pings := r.2, interval := wo.interval }

/-- UTF-8 bytes of a character, as Go strings are byte sequences. -/
def utf8Bytes (c : Char) : List Nat :=
  let n := c.toNat
  if n < 128 then [n]
  else if n < 2048 then [192 + n / 64, 128 + n % 64]
  else if n < 65536 then [224 + n / 4096, 128 + (n / 64) % 64, 128 + n % 64]
  else [240 + n / 262144, 128 + (n / 4096) % 64, 128 + (n / 64) % 64, 128 + n % 64]

/-- UTF-8 bytes of a string. -/
def strBytes (s : String) : List Nat := (s.toList.map utf8Bytes).flatten

/-- The encoding modes of `net/url`'s escaping used by this library. -/
inductive Encoding where
  | path
  | userPassword
  | queryComponent
  | host
deriving DecidableEq, Repr

/-- The extra characters `net/url` leaves unescaped in host names. -/
def hostExtra : List Char :=
  [ '!', '$', '&', Char.ofNat 39, '(', ')', '*', '+', ',', ';', '=', ':',
    '[', ']', '<', '>', '"']

/-- Model of `net/url`'s `shouldEscape` for the byte `b` in the given
mode, transcribed case for case. -/
def shouldEscape (b : Nat) (mode : Encoding) : Bool :=
  let c := Char.ofNat b
  if ( 'a' ≤ c ∧ c ≤ 'z') ∨ ( 'A' ≤ c ∧ c ≤ 'Z') ∨ ( '0' ≤ c ∧ c ≤ '9') then
    false
  else if mode = Encoding.host ∧ c ∈ hostExtra then
    false
  else if c ∈ [ '-', '_', '.', '~'] then
    false
  else if c ∈ [ '$', '&', '+', ',', '/', ':', ';', '=', '?', '@'] then
    match mode with
    | Encoding.path => decide (c = '?')
    | Encoding.userPassword =>
      decide (c = '@') || decide (c = '/') || decide (c = '?') || decide (c = ':')
    | Encoding.queryComponent => true
    | Encoding.host => true
  else
    true

/-- Upper-case hexadecimal digit, as used by `net/url` percent-escaping. -/
def hexDigit (n : Nat) : Char :=
  Char.ofNat (if n < 10 then 48 + n else 55 + n)

/-- Percent-encoding of one byte. -/
def percentEncode (b : Nat) : String :=
  String.mk [ '%', hexDigit (b / 16), hexDigit (b % 16)]

/-- Escaping of one byte: space becomes `+` in query components, escapable
bytes are percent-encoded, the rest pass through. -/
def escapeByte (b : Nat) (mode : Encoding) : String :=
  if b = 32 ∧ mode = Encoding.queryComponent then ("+")
  else if shouldEscape b mode then percentEncode b
  else String.mk [Char.ofNat b]

/-- Model of `net/url`'s `escape`, operating on the UTF-8 bytes. -/
def escape (s : String) (mode : Encoding) : String :=
  String.join ((strBytes s).map (fun b => escapeByte b mode))

/-- Byte-wise lexicographic order, as used by Go's `sort.Strings`. -/
def bytesLe : List Nat → List Nat → Bool
  | [], _ => true
  | _ :: _, [] => false
  | a :: as, b :: bs => if a < b then true else if b < a then false else bytesLe as bs

/-- String order of `sort.Strings` (bytes compared left to right). -/
def strLe (a b : String) : Bool := bytesLe (strBytes a) (strBytes b)

/-- Insert into a sorted list (helper for sorting the query keys). -/
def insSorted (le : α → α → Bool) (x : α) : List α → List α
  | [] => [x]
  | y :: ys => if le x y then x :: y :: ys else y :: insSorted le x ys

/-- Insertion sort (the keys set by `Config.URI` are distinct, so any
sorting algorithm renders the same query string as Go's `sort.Strings`). -/
def sortBy (le : α → α → Bool) : List α → List α
  | [] => []
  | x :: xs => insSorted le x (sortBy le xs)

/-- Model of `url.Values` restricted to single-valued keys, which is how
`Config.URI` uses it (`Set` replaces the binding for a key). -/
abbrev Values := List (String × String)

/-- `url.Values.Set`: replace any binding for `k` with `v`. -/
def Values.set (q : Values) (k v : String) : Values :=
  (q.filter (fun p => p.1 ≠ k)) ++ [(k, v)]

/-- `url.Values.Encode`: keys sorted, each key/value pair query-escaped and
joined with `&`. -/
def Values.encode (q : Values) : String :=
  let sorted := sortBy (fun a b => strLe a.1 b.1) q
  String.intercalate ("&")
    (sorted.map (fun kv =>
      escape kv.1 Encoding.queryComponent ++ ("=") ++
        escape kv.2 Encoding.queryComponent))

/-- Model of `net.JoinHostPort`: brackets the host when it contains a
colon.  (Spelled over the character list so that it evaluates inside the
kernel.) -/
def joinHostPort (host port : String) : String :=
  if host.toList.any (fun c => decide (c = ':')) then ("[") ++ host ++ ("]:") ++ port
  else host ++ (":") ++ port

/-- Split a character list on a separator character (the behaviour of
`strings.Split` with a one-character separator, spelled so that it
evaluates inside the kernel). -/
def splitChars (sep : Char) : List Char → List String
  | [] => [""]
  | c :: cs =>
    let r := splitChars sep cs
    if c = sep then ("") :: r
    else
      match r with
      | [] => [String.mk [c]]
      | h :: t => (String.mk [c] ++ h) :: t

/-- Lexical cleaning of a rooted slash-separated path (`filepath.Clean` on
paths beginning with `/`): empty and `.` components vanish and `..` pops,
never escaping the root. -/
def cleanRooted (s : String) : String :=
  let comps := (splitChars '/' s.toList).filter (fun c => c ≠ "" ∧ c ≠ ("."))
  let stack := comps.foldl
    (fun st c => if c = ("..") then st.dropLast else st ++ [c])
    ([] : List String)
  ("/") ++ String.intercalate ("/") stack

/-- Model of `filepath.Join` for the rooted use in `Config.URI`
(`filepath.Join("/", dbName)`): drop empty elements, join with `/`, clean. -/
def filepathJoin (elems : List String) : String :=
  cleanRooted (String.intercalate ("/") (elems.filter (fun e => e ≠ "")))

/-- Model of `url.URL` as populated by `Config.URI`: scheme, optional
user/password (from `url.UserPassword`), host, path and raw query. -/
structure URL where
  scheme : String := ""
  user : Option (String × String) := none
  host : String := ""
  path : String := ""
  rawQuery : String := ""
deriving DecidableEq, Repr

/-- The user-info segment rendered by `url.URL.String`: empty when no
user is set, otherwise `user:password@` with both parts escaped. -/
def URL.userinfoString (u : URL) : String :=
  match u.user with
  | none => ""
  | some up =>
    escape up.1 Encoding.userPassword ++ (":") ++
      escape up.2 Encoding.userPassword ++ ("@")

/-- Model of `url.URL.String` for URLs without opaque part, fragment or
forced query, which is all `Config.URI` produces. -/
def URL.toString (u : URL) : String :=
  let s := if u.scheme ≠ "" then u.scheme ++ (":") else ""
  let s := if u.scheme ≠ "" ∨ u.host ≠ "" ∨ u.user.isSome then s ++ ("//") else s
  let s := s ++ u.userinfoString
  let s := if u.host ≠ "" then s ++ escape u.host Encoding.host else s
  let p := escape u.path Encoding.path
  let headSlash : Bool :=
    match p.toList with
    | [] => false
    | c :: _ => decide (c = '/')
  let s := if p ≠ "" ∧ headSlash = false ∧ u.host ≠ "" then s ++ ("/") ++ p
    else s ++ p
  if u.rawQuery ≠ "" then s ++ ("?") ++ u.rawQuery else s

/-- `PostgresDBType` (the Go `Type` constant). -/
def PostgresDBType : String := "postgres"

/-- `MySQLDBType` (the Go `Type` constant). -/
def MySQLDBType : String := "mysql"

/-- Model of `Config` (src/mockdb/db.go).  The Go field `Type` is named
`typ` here because `Type` is reserved in Lean. -/
structure Config where
  typ : String := ""
  Host : String := ""
  Port : String := ""
  User : String := ""
  Password : String := ""
  DBName : String := ""
  SSLMode : String := ""
  SSLCA : String := ""
  SSLCert : String := ""
  SSLKey : String := ""
  SSLSNI : String := ""
  ConnectTimeout : Nat := 0
deriving DecidableEq, Repr

/-- The process environment, as seen by `os.LookupEnv`. -/
abbrev Env := String → Option String

/-- Model of `getEnv`: the variable's value when set, otherwise the first
non-empty default, otherwise the empty string. -/
def getEnv (env : Env) (key : String) (defaults : List String) : String :=
  match env key with
  | none =>
    match defaults.find? (fun v => v.length > 0) with
    | some v => v
    | none => ""
  | some v => v

/-- Model of `strconv.ParseUint(s, 10, 64)`: a non-empty all-digit string
whose value fits in 64 bits, otherwise failure. -/
def parseUint (s : String) : Option Nat :=
  if s.length = 0 then none
  else if s.toList.all (fun c => ( '0' ≤ c ∧ c ≤ '9')) then
    let n := s.toList.foldl (fun acc c => acc * 10 + (c.toNat - 48)) 0
    if n < 2 ^ 64 then some n else none
  else none

/-- The `errEnvNotFound` sentinel of the configuration code. -/
def errEnvNotFound : Err := Err.msg ("environment variable not found")

/-- Model of `getEnvUint`, mirroring Go's multiple return: the parsed
value with no error, or zero paired with the parse/lookup error. -/
def getEnvUint (env : Env) (key : String) (defaults : List Nat) : Nat × Option Err :=
  match env key with
  | none =>
    match defaults with
    | d :: _ => (d, none)
    | [] => (0, some errEnvNotFound)
  | some v =>
    match parseUint v with
    | some i => (i, none)
    | none => (0, some (Err.msg ("invalid uint: " ++ v)))

/-- ASCII upper-casing of a string (the behaviour of `strings.ToUpper` on
the ASCII kind names this library uses, spelled over the character list so
that it evaluates inside the kernel). -/
def strToUpper (s : String) : String :=
  String.mk (s.toList.map Char.toUpper)

/-- The guarded assignment pattern of `Config.Init`: a string field is
filled from `g` only when currently empty. -/
def fill (x g : String) : String := if x.length = 0 then g else x

/-- The guarded assignment pattern of `Config.Init` for the numeric
field: filled from `g` only when currently zero. -/
def fillNat (x g : Nat) : Nat := if x = 0 then g else x

/-- Model of `Config.Init` (src/mockdb/db.go): every empty field is filled
from `<UPPER(TYPE)>_<FIELD>` environment variables; the kind itself falls
back to `DATABASE_TYPE` then `postgres`; the default port depends on the
kind; a failed `getEnvUint` leaves `ConnectTimeout` at the returned zero
(the error is discarded). -/
def Config.Init (env : Env) (db : Config) : Config :=
  let typ := fill db.typ (getEnv env ("DATABASE_TYPE") [PostgresDBType])
  let defPort :=
    if typ = PostgresDBType then ("5432")
    else if typ = MySQLDBType then ("3306")
    else ""
  let keyPre := strToUpper typ ++ ("_")
  { db with
    typ := typ
    Host := fill db.Host (getEnv env (keyPre ++ ("HOST")) [("localhost")])
    Port := fill db.Port (getEnv env (keyPre ++ ("PORT")) [defPort])
    User := fill db.User (getEnv env (keyPre ++ ("USER")) [])
    Password := fill db.Password (getEnv env (keyPre ++ ("PASSWORD")) [])
    DBName := fill db.DBName (getEnv env (keyPre ++ ("DB")) [])
    SSLMode := fill db.SSLMode (getEnv env (keyPre ++ ("SSLMODE")) [])
    ConnectTimeout :=
      fillNat db.ConnectTimeout (getEnvUint env (keyPre ++ ("CONNECT_TIMEOUT")) []).1 }

/-- The query values built by `Config.URI`: kind-specific parameter names,
each set only when the corresponding field is non-empty (non-zero for the
timeout). -/
def Config.queryValues (db : Config) : Values :=
  if db.typ = PostgresDBType then
    let q : Values := []
    let q := if db.ConnectTimeout > 0 then
      Values.set q ("connect_timeout") (toString db.ConnectTimeout) else q
    let q := if db.SSLMode.length > 0 then Values.set q ("sslmode") db.SSLMode else q
    let q := if db.SSLCA.length > 0 then Values.set q ("sslrootcert") db.SSLCA else q
    let q := if db.SSLCert.length > 0 then Values.set q ("sslcert") db.SSLCert else q
    let q := if db.SSLKey.length > 0 then Values.set q ("sslkey") db.SSLKey else q
    if db.SSLSNI.length > 0 then Values.set q ("sslsni") db.SSLSNI else q
  else if db.typ = MySQLDBType then
    let q : Values := []
    let q := if db.ConnectTimeout > 0 then
      Values.set q ("connect-timeout") (toString db.ConnectTimeout) else q
    let q := if db.SSLMode.length > 0 then Values.set q ("ssl-mode") db.SSLMode else q
    let q := if db.SSLCA.length > 0 then Values.set q ("ssl-ca") db.SSLCA else q
    let q := if db.SSLCert.length > 0 then Values.set q ("ssl-cert") db.SSLCert else q
    if db.SSLKey.length > 0 then Values.set q ("ssl-key") db.SSLKey else q
  else []

/-- Model of `Config.URI` (src/mockdb/db.go): scheme from the kind, host
from `net.JoinHostPort`, path from `filepath.Join("/", DBName)`, user-info
only when both user and password are non-empty, and the encoded query when
any parameter is present. -/
def Config.URI (db : Config) : URL :=
  let q := db.queryValues
  { scheme := db.typ
    user := if db.User.length > 0 ∧ db.Password.length > 0 then
      some (db.User, db.Password) else none
    host := joinHostPort db.Host db.Port
    path := filepathJoin [("/"), db.DBName]
    rawQuery := if q.length > 0 then Values.encode q else "" }

/-- The environment of the postgres rendering test: kind, host, port,
database name, connect timeout and ssl mode bound, everything else unset. -/
def env7 : Env := fun k =>
  if k = ("DATABASE_TYPE") then some ("postgres")
  else if k = ("POSTGRES_HOST") then some ("127.0.0.2")
  else if k = ("POSTGRES_PORT") then some ("1234")
  else if k = ("POSTGRES_DB") then some ("test_db")
  else if k = ("POSTGRES_CONNECT_TIMEOUT") then some ("69")
  else if k = ("POSTGRES_SSLMODE") then some ("any_dumb_value")
  else none

end Db

namespace Db

/-- Helper: `waitLoop` returns success after `k` failing ticks followed by a
successful `Ping`, having issued `k + 1` pings, provided the context is not
done at any of those ticks and the fuel suffices. -/
theorem waitLoop_success (env : WaitEnv) :
    ∀ k fuel t, (∀ j, j < k → ctxDone env (t + j) = false ∧ env.ping (t + j) ≠ none) →
      ctxDone env (t + k) = false → env.ping (t + k) = none → k < fuel →
      waitLoop env fuel t = (some none, k + 1) := by
  intro k
  induction k with
  | zero =>
    intro fuel t _ hdone hping hk
    match fuel, hk with
    | Nat.succ fuel, _ =>
      simp only [Nat.add_zero] at hdone hping
      simp [waitLoop, hdone, hping]
  | succ k ih =>
    intro fuel t hfail hdone hping hk
    match fuel, hk with
    | Nat.succ fuel, hk =>
      have h0 := hfail 0 (Nat.succ_pos k)
      simp only [Nat.add_zero] at h0
      obtain ⟨hp, hf⟩ := h0
      have hrec := ih fuel (t + 1)
        (fun j hj => by
          have := hfail (j + 1) (Nat.succ_lt_succ hj)
          simpa [Nat.add_assoc, Nat.add_comm 1 j] using this)
        (by simpa [Nat.add_assoc, Nat.add_comm 1 k] using hdone)
        (by simpa [Nat.add_assoc, Nat.add_comm 1 k] using hping)
        (Nat.lt_of_succ_lt_succ hk)
      match hfe : env.ping t with
      | none => exact absurd hfe hf
      | some e =>
        simp [waitLoop, hp, hfe, hrec]

/-- Helper: `waitLoop` returns the wrapped timeout error once the context
is observed done at tick `k`, after `k` failing pings. -/
theorem waitLoop_timeout (env : WaitEnv) :
    ∀ k fuel t, (∀ j, j < k → ctxDone env (t + j) = false ∧ env.ping (t + j) ≠ none) →
      ctxDone env (t + k) = true → k < fuel →
      (waitLoop env fuel t).1 =
        some (some (Err.wrap ("could not reach database") Err.dbTimeout)) := by
  intro k
  induction k with
  | zero =>
    intro fuel t _ hdone hk
    match fuel, hk with
    | Nat.succ fuel, _ =>
      simp only [Nat.add_zero] at hdone
      simp [waitLoop, hdone]
  | succ k ih =>
    intro fuel t hfail hdone hk
    match fuel, hk with
    | Nat.succ fuel, hk =>
      have h0 := hfail 0 (Nat.succ_pos k)
      simp only [Nat.add_zero] at h0
      obtain ⟨hp, hf⟩ := h0
      have hrec := ih fuel (t + 1)
        (fun j hj => by
          have := hfail (j + 1) (Nat.succ_lt_succ hj)
          simpa [Nat.add_assoc, Nat.add_comm 1 j] using this)
        (by simpa [Nat.add_assoc, Nat.add_comm 1 k] using hdone)
        (Nat.lt_of_succ_lt_succ hk)
      match hfe : env.ping t with
      | none => exact absurd hfe hf
      | some e =>
        simp [waitLoop, hp, hfe, hrec]

/-- C1: `WithStmt` returns the prepare error without running the callback or
closing when preparation fails; otherwise the statement is closed exactly
once, the callback runs exactly once, and the returned error follows the
precedence fn-error then close-error then nil. -/
theorem withStmt_lifecycle (env : StmtEnv) :
    (∀ e, env.prepErr = some e →
      (WithStmt env).result = some e ∧ (WithStmt env).fnCalls = 0 ∧
        (WithStmt env).closeCalls = 0) ∧
    (env.prepErr = none →
      (WithStmt env).closeCalls = 1 ∧ (WithStmt env).fnCalls = 1 ∧
        (WithStmt env).result =
          (match env.fnErr with
            | some e => some e
            | none => env.closeErr)) := by
  obtain ⟨p, f, c⟩ := env
  cases p <;> cases f <;> cases c <;>
    simp [WithStmt, withStack]

/-- Witness for C1: concrete run where the callback fails and a close error
is swallowed, exercising the fn-error branch of the precedence. -/
theorem withStmt_lifecycle_witness :
    (WithStmt { prepErr := none, fnErr := some (Err.msg ("boom")),
                closeErr := some (Err.msg ("close")) }).result =
      some (Err.msg ("boom")) := by
  have h := (withStmt_lifecycle
    { prepErr := none, fnErr := some (Err.msg ("boom")),
      closeErr := some (Err.msg ("close")) }).2 rfl
  exact h.2.2

/-- C2: with a successful begin, `WithTx` never commits after a callback
error (rollback is attempted, the callback error is returned), commits
exactly once after callback success returning the commit error, promotes a
rollback error only when nothing else failed and it is not `sql.ErrTxDone`
(which is suppressed entirely), and nil options become the zero value. -/
theorem withTx_lifecycle (txOpts : Option TxOptions) (env : TxEnv) :
    (env.beginErr = none →
      (∀ e, env.fnErr = some e →
        (WithTx txOpts env).commitCalls = 0 ∧
          (WithTx txOpts env).rollbackCalls = 1 ∧
          (WithTx txOpts env).result = some e) ∧
      (env.fnErr = none →
        (WithTx txOpts env).commitCalls = 1 ∧
        (∀ ce, env.commitErr = some ce → (WithTx txOpts env).result = some ce) ∧
        (env.commitErr = none →
          (WithTx txOpts env).result =
            (match env.rollbackErr with
              | some r => if errIs r Err.txDone then none else some r
              | none => none))) ∧
      (∀ r, env.rollbackErr = some r → errIs r Err.txDone = true →
        (WithTx txOpts env).result =
          (WithTx txOpts { env with rollbackErr := none }).result)) ∧
    (WithTx none env).optsUsed = { isolation := 0, readOnly := false } := by
  obtain ⟨b, f, c, r⟩ := env
  cases b <;> cases f <;> cases c <;> cases r <;>
    simp [WithTx, deferredRollback, withStack]

/-- Witness for C2: concrete run where the callback succeeds, commit
succeeds, and an `sql.ErrTxDone` rollback error is suppressed. -/
theorem withTx_lifecycle_witness :
    (WithTx none { beginErr := none, fnErr := none, commitErr := none,
                   rollbackErr := some Err.txDone }).result = none := by
  have h := ((withTx_lifecycle none
    { beginErr := none, fnErr := none, commitErr := none,
      rollbackErr := some Err.txDone }).1 rfl).2.1 rfl
  have h2 := h.2.2 rfl
  simpa [errIs] using h2

/-- C3: `ScanOne` calls `Next` exactly once and `Close` exactly once on
every path; with no row it returns the iteration error or `sql.ErrNoRows`;
with a row it returns the scan error, or on scan success the outcome of
`Close`. -/
theorem scanOne_single_row (env : RowsEnv) :
    (ScanOne env).nextCalls = 1 ∧ (ScanOne env).closeCalls = 1 ∧
    (env.next = false →
      (∀ e, env.errErr = some e → (ScanOne env).result = some e) ∧
      (env.errErr = none → (ScanOne env).result = some Err.noRows)) ∧
    (env.next = true →
      (∀ e, env.scanErr = some e → (ScanOne env).result = some e) ∧
      (env.scanErr = none → (ScanOne env).result = env.closeErr)) := by
  obtain ⟨n, e, s, c⟩ := env
  cases n <;> cases e <;> cases s <;> cases c <;>
    simp [ScanOne]

/-- Witness for C3: concrete zero-row run returning the `sql.ErrNoRows`
sentinel. -/
theorem scanOne_single_row_witness :
    (ScanOne { next := false, errErr := none, scanErr := none,
               closeErr := none }).result = some Err.noRows := by
  have h := (scanOne_single_row
    { next := false, errErr := none, scanErr := none, closeErr := none }).2.2.1 rfl
  exact h.2 rfl

/-- C4 counterexample: with the context cancelled (cause `context.Canceled`)
before any ping succeeds, `WaitFor` returns the fixed
`errors.Wrap(ErrDBTimeout, "could not reach database")` value, and that
error does NOT carry the cancellation cause: `errors.Is` against the cause
is false, refuting the "derived from / carries the original cancellation
cause" part of the claim. -/
theorem waitFor_cause_not_carried :
    (WaitFor [] { pingCtx := some (Err.msg ("refused")),
                  ping := fun _ => some (Err.msg ("refused")),
                  doneAt := some 0, doneCause := Err.canceled } 1).result =
      some (some (Err.wrap ("could not reach database") Err.dbTimeout)) ∧
    errIs (Err.wrap ("could not reach database") Err.dbTimeout) Err.canceled = false := by
  constructor
  · rfl
  · rfl

/-- C4 (amended): when the cancellation context becomes done before any
ping succeeds, `WaitFor` returns the "could not reach database" error
wrapping the sentinel `ErrDBTimeout` (so `errors.Is(err, ErrDBTimeout)`
holds); the error is this fixed wrapped sentinel and does not embed the
original cancellation cause. -/
theorem waitFor_timeout_wraps_sentinel (env : WaitEnv) (fuel d : Nat) :
    env.pingCtx ≠ none → env.doneAt = some d →
    (∀ j, j < d → env.ping j ≠ none) → d < fuel →
    (WaitFor [] env fuel).result =
      some (some (Err.wrap ("could not reach database") Err.dbTimeout)) ∧
    errIs (Err.wrap ("could not reach database") Err.dbTimeout) Err.dbTimeout = true := by
  intro hctx hdone hfail hfuel
  refine ⟨?_, rfl⟩
  have hloop := waitLoop_timeout env d fuel 0
    (fun j hj => ⟨by simp [ctxDone, hdone, Nat.not_le.mpr hj], by
      simpa using hfail j hj⟩)
    (by simp [ctxDone, hdone])
    hfuel
  match hp : env.pingCtx with
  | none => exact absurd hp hctx
  | some e =>
    simp only [Nat.zero_add] at hloop
    simp [WaitFor, hp, hloop]

/-- Witness for C4: concrete run with the context done at tick 2 after two
failing pings. -/
theorem waitFor_timeout_wraps_sentinel_witness :
    (WaitFor [] { pingCtx := some (Err.msg ("down")),
                  ping := fun _ => some (Err.msg ("down")),
                  doneAt := some 2, doneCause := Err.canceled } 5).result =
      some (some (Err.wrap ("could not reach database") Err.dbTimeout)) := by
  exact (waitFor_timeout_wraps_sentinel
    { pingCtx := some (Err.msg ("down")),
      ping := fun _ => some (Err.msg ("down")),
      doneAt := some 2, doneCause := Err.canceled } 5 2
    (by simp) rfl (fun j _ => by simp) (by decide)).1

/-- C5: `WaitFor` sends exactly one immediate `PingContext`; if it succeeds
the call returns nil with zero loop pings; otherwise each tick issues a
`Ping` and the call returns nil on the first success (after `k` failures,
`k + 1` pings were issued); with no options the ticker interval is the
default `time.Second * 2`. -/
theorem waitFor_probe_then_poll (env : WaitEnv) (fuel : Nat) :
    (WaitFor [] env fuel).interval = timeSecond * 2 ∧
    (WaitFor [] env fuel).ctxPings = 1 ∧
    (env.pingCtx = none →
      (WaitFor [] env fuel).result = some none ∧ (WaitFor [] env fuel).pings = 0) ∧
    (∀ e k, env.pingCtx = some e →
      (∀ j, j < k → ctxDone env j = false ∧ env.ping j ≠ none) →
      ctxDone env k = false → env.ping k = none → k < fuel →
      (WaitFor [] env fuel).result = some none ∧
        (WaitFor [] env fuel).pings = k + 1) := by
  refine ⟨?_, ?_, ?_, ?_⟩
  · cases hp : env.pingCtx <;> simp [WaitFor, hp]
  · cases hp : env.pingCtx <;> simp [WaitFor, hp]
  · intro hp
    simp [WaitFor, hp]
  · intro e k hp hfail hdone hping hfuel
    have hloop := waitLoop_success env k fuel 0
      (fun j hj => by simpa using hfail j hj)
      (by simpa using hdone) (by simpa using hping) hfuel
    simp [WaitFor, hp, hloop]

/-- Witness for C5: after one failing tick the second tick's ping succeeds,
so the call returns nil with two loop pings and the default interval. -/
theorem waitFor_probe_then_poll_witness :
    (WaitFor [] { pingCtx := some (Err.msg ("down")),
                  ping := fun t => if t = 0 then some (Err.msg ("down")) else none,
                  doneAt := none, doneCause := Err.canceled } 3).result = some none ∧
    (WaitFor [] { pingCtx := some (Err.msg ("down")),
                  ping := fun t => if t = 0 then some (Err.msg ("down")) else none,
                  doneAt := none, doneCause := Err.canceled } 3).pings = 2 := by
  exact (waitFor_probe_then_poll
    { pingCtx := some (Err.msg ("down")),
      ping := fun t => if t = 0 then some (Err.msg ("down")) else none,
      doneAt := none, doneCause := Err.canceled } 3).2.2.2
    (Err.msg ("down")) 1 rfl
    (fun j hj => by
      have hj0 : j = 0 := by omega
      subst hj0
      simp [ctxDone])
    (by simp [ctxDone]) (by simp) (by decide)

/-- C6: `Begin` rejects a value already implementing `Tx` with an error and
a nil transaction, attempting no begin operation; a value matching none of
the dispatch cases yields the descriptive type-mismatch error naming the
argument's type, again with no begin attempted. -/
theorem begin_dispatch_errors (v : AnyValue) :
    (v.implTx = true →
      (Begin v).txNil = true ∧ (Begin v).err.isSome = true ∧
        (Begin v).beginCalls = 0) ∧
    (v.implTx = false → v.implDB = false → v.isSqlDB = false →
      v.implTxBeginor = false →
      (Begin v).txNil = true ∧
        (Begin v).err = some (Err.msg ("cannot start a transaction using " ++ v.typeName)) ∧
        (Begin v).beginCalls = 0) := by
  constructor
  · intro h
    simp [Begin, h]
  · intro h1 h2 h3 h4
    simp [Begin, h1, h2, h3, h4]

/-- Witness for C6: a concrete unrecognized value produces the `%T`
type-mismatch error with no begin attempt. -/
theorem begin_dispatch_errors_witness :
    (Begin { implTx := false, implDB := false, isSqlDB := false,
             implTxBeginor := false, typeName := "int",
             beginErr := none }).err =
      some (Err.msg ("cannot start a transaction using int")) := by
  exact ((begin_dispatch_errors
    { implTx := false, implDB := false, isSqlDB := false,
      implTxBeginor := false, typeName := "int", beginErr := none }).2
    rfl rfl rfl rfl).2.1

/-- Helper: a string has length zero exactly when it is empty. -/
theorem str_length_zero_iff (s : String) : s.length = 0 ↔ s = "" := by
  cases s with
  | mk data =>
    constructor
    · intro h
      simp only [String.length] at h
      have : data = [] := List.length_eq_zero.mp h
      simp [this]
    · intro h
      simp [h]

/-- Helper: appending `@` never yields the empty string. -/
theorem str_append_at_ne (a : String) : a ++ ("@") ≠ "" := by
  intro h
  have h2 : (a ++ ("@")).length = (0 : Nat) := by rw [h]; rfl
  have h3 : (a ++ ("@")).length = a.length + 1 := by
    cases a with
    | mk data => simp [String.length, String.append]
  omega

/-- Helper: `fill` is idempotent in its guarded-assignment role. -/
theorem fill_fill (x g : String) : fill (fill x g) g = fill x g := by
  unfold fill
  by_cases h : x.length = 0 <;> simp [h]

/-- Helper: `fillNat` is idempotent in its guarded-assignment role. -/
theorem fillNat_fillNat (x g : Nat) : fillNat (fillNat x g) g = fillNat x g := by
  unfold fillNat
  by_cases h : x = 0 <;> simp [h]

/-- Helper: membership after `url.Values.Set` is the new binding or an old
member. -/
theorem mem_values_set (q : Values) (k v : String) (p : String × String) :
    p ∈ Values.set q k v → p = (k, v) ∨ p ∈ q := by
  intro h
  rcases List.mem_append.mp h with h1 | h2
  · exact Or.inr (List.mem_of_mem_filter h1)
  · simp only [List.mem_singleton] at h2
    exact Or.inl h2

/-- Helper: membership through one guarded `Set` step of `Config.URI`'s
query construction. -/
theorem mem_values_set_ite (b : Prop) [Decidable b] (q : Values) (k v : String)
    (p : String × String) :
    p ∈ (if b then Values.set q k v else q) → (p.1 = k ∧ b) ∨ p ∈ q := by
  split
  · intro h
    rcases mem_values_set q k v p h with h1 | h2
    · exact Or.inl ⟨by simp [h1], by assumption⟩
    · exact Or.inr h2
  · intro h
    exact Or.inr h

/-- Helper: with a zero `ConnectTimeout` no query key of either kind is the
connect-timeout parameter. -/
theorem queryValues_no_timeout_key (c : Config) (h : c.ConnectTimeout = 0) :
    ∀ p ∈ c.queryValues, p.1 ≠ ("connect_timeout") ∧ p.1 ≠ ("connect-timeout") := by
  intro p hp
  simp only [Config.queryValues, h] at hp
  norm_num at hp
  split at hp
  · rcases mem_values_set_ite _ _ _ _ _ hp with ⟨hk, _⟩ | hp
    · rw [hk]; exact ⟨by decide, by decide⟩
    rcases mem_values_set_ite _ _ _ _ _ hp with ⟨hk, _⟩ | hp
    · rw [hk]; exact ⟨by decide, by decide⟩
    rcases mem_values_set_ite _ _ _ _ _ hp with ⟨hk, _⟩ | hp
    · rw [hk]; exact ⟨by decide, by decide⟩
    rcases mem_values_set_ite _ _ _ _ _ hp with ⟨hk, _⟩ | hp
    · rw [hk]; exact ⟨by decide, by decide⟩
    rcases mem_values_set_ite _ _ _ _ _ hp with ⟨hk, _⟩ | hp
    · rw [hk]; exact ⟨by decide, by decide⟩
    simp at hp
  · split at hp
    · rcases mem_values_set_ite _ _ _ _ _ hp with ⟨hk, _⟩ | hp
      · rw [hk]; exact ⟨by decide, by decide⟩
      rcases mem_values_set_ite _ _ _ _ _ hp with ⟨hk, _⟩ | hp
      · rw [hk]; exact ⟨by decide, by decide⟩
      rcases mem_values_set_ite _ _ _ _ _ hp with ⟨hk, _⟩ | hp
      · rw [hk]; exact ⟨by decide, by decide⟩
      rcases mem_values_set_ite _ _ _ _ _ hp with ⟨hk, _⟩ | hp
      · rw [hk]; exact ⟨by decide, by decide⟩
      simp at hp
    · simp at hp

/-- C7: from the environment kind=postgres, host=127.0.0.2, port=1234,
db=test_db, connect-timeout=69, sslmode=any_dumb_value (nothing else set),
a zero Config after Init renders exactly the expected URI, with the empty
optional parameters omitted and the query keys in alphabetical order. -/
theorem config_init_uri_postgres :
    URL.toString (Config.URI (Config.Init env7 {})) =
      ("postgres://127.0.0.2:1234/test_db?connect_timeout=69&sslmode=any_dumb_value") := by
  decide

/-- C8: the URI built by `Config.URI` carries user-info exactly when both
the user and the password are non-empty; with only one of them set the
rendered user-info segment is empty. -/
theorem config_userinfo_both_or_nothing (c : Config) :
    ((Config.URI c).user.isSome = true ↔ c.User.length > 0 ∧ c.Password.length > 0) ∧
    (URL.userinfoString (Config.URI c) = "" ↔
      (c.User.length = 0 ∨ c.Password.length = 0)) := by
  by_cases h : c.User.length > 0 ∧ c.Password.length > 0
  · constructor
    · simp [Config.URI, h]
    · simp only [Config.URI, URL.userinfoString, h, if_true]
      constructor
      · intro hs
        exact absurd hs (str_append_at_ne _)
      · intro hs
        omega
  · constructor
    · simp [Config.URI, h]
    · simp only [Config.URI, URL.userinfoString, h, if_false]
      constructor
      · intro _
        omega
      · intro _
        trivial

/-- Witness for C8: a config with a user but no password renders no
user-info. -/
theorem config_userinfo_both_or_nothing_witness :
    URL.userinfoString (Config.URI { User := ("alice") }) = "" := by
  exact (config_userinfo_both_or_nothing { User := ("alice") }).2.mpr
    (Or.inr rfl)

/-- C9: when `<KIND>_CONNECT_TIMEOUT` is set to a string that does not
parse as an unsigned 64-bit integer, `Init` discards the error:
`ConnectTimeout` stays zero and the connect-timeout parameter is absent
from the query of the rendered URI. -/
theorem config_malformed_timeout_ignored (env : Env) (c : Config) (s : String)
    (h0 : c.ConnectTimeout = 0)
    (henv : env (strToUpper (Config.Init env c).typ ++ ("_CONNECT_TIMEOUT")) = some s)
    (hbad : parseUint s = none) :
    (Config.Init env c).ConnectTimeout = 0 ∧
    ∀ p ∈ (Config.Init env c).queryValues,
      p.1 ≠ ("connect_timeout") ∧ p.1 ≠ ("connect-timeout") := by
  have hkey : strToUpper (Config.Init env c).typ ++ ("_CONNECT_TIMEOUT") =
      strToUpper (Config.Init env c).typ ++ ("_") ++ ("CONNECT_TIMEOUT") := by
    rw [String.append_assoc]
    rfl
  have htyp : (Config.Init env c).typ =
      fill c.typ (getEnv env ("DATABASE_TYPE") [PostgresDBType]) := by
    simp [Config.Init]
  have hct : (Config.Init env c).ConnectTimeout = 0 := by
    rw [hkey, htyp] at henv
    simp only [Config.Init, htyp]
    rw [h0]
    simp only [fillNat, if_pos rfl]
    simp [getEnvUint, henv, hbad, fillNat]
  exact ⟨hct, queryValues_no_timeout_key _ hct⟩

/-- Witness for C9: the unparsable value `nope` leaves `ConnectTimeout`
zero. -/
theorem config_malformed_timeout_ignored_witness :
    (Config.Init
      (fun k => if k = ("POSTGRES_CONNECT_TIMEOUT") then some ("nope") else none)
      {}).ConnectTimeout = 0 := by
  exact (config_malformed_timeout_ignored
    (fun k => if k = ("POSTGRES_CONNECT_TIMEOUT") then some ("nope") else none)
    {} ("nope") rfl (by decide) (by decide)).1

/-- C10: `Config.Init` only fills empty (or zero) fields, never touching a
field already set, and under a fixed environment it is idempotent. -/
theorem config_init_idempotent (env : Env) (c : Config) :
    ((c.typ ≠ "" → (Config.Init env c).typ = c.typ) ∧
     (c.Host ≠ "" → (Config.Init env c).Host = c.Host) ∧
     (c.Port ≠ "" → (Config.Init env c).Port = c.Port) ∧
     (c.User ≠ "" → (Config.Init env c).User = c.User) ∧
     (c.Password ≠ "" → (Config.Init env c).Password = c.Password) ∧
     (c.DBName ≠ "" → (Config.Init env c).DBName = c.DBName) ∧
     (c.SSLMode ≠ "" → (Config.Init env c).SSLMode = c.SSLMode) ∧
     (c.ConnectTimeout ≠ 0 → (Config.Init env c).ConnectTimeout = c.ConnectTimeout) ∧
     (Config.Init env c).SSLCA = c.SSLCA ∧
     (Config.Init env c).SSLCert = c.SSLCert ∧
     (Config.Init env c).SSLKey = c.SSLKey ∧
     (Config.Init env c).SSLSNI = c.SSLSNI) ∧
    Config.Init env (Config.Init env c) = Config.Init env c := by
  constructor
  · refine ⟨?_, ?_, ?_, ?_, ?_, ?_, ?_, ?_, ?_, ?_, ?_, ?_⟩ <;>
      first
      | (intro h
         simp [Config.Init, fill, fillNat, str_length_zero_iff, h])
      | simp [Config.Init]
  · simp only [Config.Init]
    simp only [fill_fill, fillNat_fillNat]

/-- Witness for C10: idempotence at a concrete config and environment. -/
theorem config_init_idempotent_witness :
    Config.Init env7 (Config.Init env7 { Host := ("h") }) =
      Config.Init env7 { Host := ("h") } := by
  exact (config_init_idempotent env7 { Host := ("h") }).2

end Db
